import Mathlib

/-!
Verification of the `top_money` personal finance ledger
(`finance/currency.py`, `finance/models.py`, `finance/views.py`).

Modelling conventions:
* Python `Decimal` amounts and rates are exact decimal fractions; `Decimal`
  addition, subtraction and multiplication on them are exact, so they are
  embedded as `ℚ`.
* Timestamps (`DateTimeField`) are embedded as `ℤ` instants; the code only
  compares them with `≤` / `<`.
* Asset and user primary keys are embedded as `Nat`.
* A `ValueError` raised by `CurrencyConverter.convert` is embedded as
  `Except.error (from_currency, to_currency)`: the exception message names
  exactly this ordered pair.
* The transaction store is a `List Transaction`; Django query-set filters
  become `List.filter`.  The list order stands for the iteration order of
  the corresponding query set.
-/

namespace TopMoney

/-- `TransactionType` choices of `finance/models.py`. -/
inductive TransactionType where
  | WASTE
  | TRANSFER
  | REFILL
  | CHANGING_BALANCE
  deriving DecidableEq, Repr

/-- The fields of `finance.models.Transaction` used by the balance and
statistics code: type, amount, currency, optional source and destination
asset ids, category, owning user and date. -/
structure Transaction where
  user : Nat
  ttype : TransactionType
  amount : ℚ
  currency : String
  from_asset : Option Nat
  to_asset : Option Nat
  category : String
  date : ℤ
  deriving DecidableEq, Repr

/-- The fields of `finance.models.Asset` used by `calculate_balance`:
primary key, owning user and currency. -/
structure Asset where
  id : Nat
  user : Nat
  currency : String
  deriving DecidableEq, Repr

namespace CurrencyConverter

/-- `CurrencyConverter.RATES` of `finance/currency.py`. -/
def RATES : List ((String × String) × ℚ) :=
  [ (("RUB", "USD"), 11 / 1000),
    (("USD", "RUB"), 90),
    (("RUB", "EUR"), 10 / 1000),
    (("EUR", "RUB"), 100),
    (("USD", "EUR"), 92 / 100),
    (("EUR", "USD"), 109 / 100) ]

/-- `cls.RATES.get((from_currency, to_currency))`. -/
def rateFor (p : String × String) : Option ℚ :=
  (RATES.find? (fun r => r.1 == p)).map (fun r => r.2)

/-- `CurrencyConverter.convert` of `finance/currency.py`: identity when the
currencies coincide, otherwise a table lookup; a missing pair raises
`ValueError` naming the pair, embedded as `Except.error`. -/
def convert (amount : ℚ) (from_currency to_currency : String) :
    Except (String × String) ℚ :=
  if from_currency = to_currency then
    .ok amount
  else
    match rateFor (from_currency, to_currency) with
    | none => .error (from_currency, to_currency)
    | some rate => .ok (amount * rate)

end CurrencyConverter

/-- The body of the summation loops of `Asset.calculate_balance`:
`amount = t.amount; if t.currency != self.currency: amount = CurrencyConverter.convert(...)`. -/
def entryValue (accCurrency : String) (t : Transaction) :
    Except (String × String) ℚ :=
  if t.currency ≠ accCurrency then
    CurrencyConverter.convert t.amount t.currency accCurrency
  else
    .ok t.amount

/-- The accumulation loop of `Asset.calculate_balance`: add each entry's
(possibly converted) amount to the running total, propagating a conversion
error. -/
def sumConverted (accCurrency : String) (acc : ℚ) :
    List Transaction → Except (String × String) ℚ
  | [] => .ok acc
  | t :: ts =>
    match entryValue accCurrency t with
    | .error e => .error e
    | .ok a => sumConverted accCurrency (acc + a) ts

/-- `self.incoming_transactions.filter(date__lte=at_time)`: the entries whose
`to_asset` is this asset, dated `≤ at_time`. -/
def incoming (ledger : List Transaction) (a : Asset) (at_time : ℤ) :
    List Transaction :=
  ledger.filter (fun t => t.to_asset == some a.id && decide (t.date ≤ at_time))

/-- `self.outgoing_transactions.filter(date__lte=at_time)`: the entries whose
`from_asset` is this asset, dated `≤ at_time`. -/
def outgoing (ledger : List Transaction) (a : Asset) (at_time : ℤ) :
    List Transaction :=
  ledger.filter (fun t => t.from_asset == some a.id && decide (t.date ≤ at_time))

/-- `Asset.calculate_balance` of `finance/models.py`: total of incoming
entries minus total of outgoing entries dated `≤ at_time`, each amount
converted to the asset's currency when it differs. -/
def calculate_balance (ledger : List Transaction) (a : Asset) (at_time : ℤ) :
    Except (String × String) ℚ :=
  match sumConverted a.currency 0 (incoming ledger a at_time) with
  | .error e => .error e
  | .ok total_in =>
    match sumConverted a.currency 0 (outgoing ledger a at_time) with
    | .error e => .error e
    | .ok total_out => .ok (total_in - total_out)

/-- `WasteCategory.choices` of `finance/models.py` (value, label). -/
def WasteChoices : List (String × String) :=
  [ ("PRODUCTS", "Products"),
    ("CAFE_AND_RESTAURANTS", "Cafe and restaurants"),
    ("TRANSPORT", "Transport"),
    ("HCS", "HCS"),
    ("LEISURE", "Leisure"),
    ("CLOTHING_AND_SHOES", "Clothing and shoes"),
    ("SPORT", "Sport"),
    ("HEALTH_AND_BEAUTY", "Health and beauty"),
    ("SUBSCRIPTIONS", "Subscriptions"),
    ("TAXES_AND_PENALTIES", "Taxes and penalties"),
    ("LEARNING", "Learning"),
    ("GIFTS", "Gifts"),
    ("TECHNIQUE", "Technique"),
    ("TRAVELING", "Traveling"),
    ("REALTY", "Realty"),
    ("OTHER_WASTE", "Other waste") ]

/-- `RefillCategory.choices` of `finance/models.py` (value, label). -/
def RefillChoices : List (String × String) :=
  [ ("SALARY", "Salary"),
    ("BONUS", "Bonus"),
    ("CASHBACK", "Cashback"),
    ("SALE", "Sale"),
    ("INVESTMENT", "Investment"),
    ("OTHER_REFILL", "Other refill") ]

/-- The local `format_category` of the `statistics` view: label lookup in
`RefillCategory.choices`, then `WasteCategory.choices`, else the raw string. -/
def format_category (cat : String) : String :=
  match RefillChoices.find? (fun choice => choice.1 == cat) with
  | some choice => choice.2
  | none =>
    match WasteChoices.find? (fun choice => choice.1 == cat) with
    | some choice => choice.2
    | none => cat

/-- The fixed 15-entry color palette of the `statistics` view. -/
def colors : List String :=
  [ "#ff6b6b", "#ffa07a", "#ffd93d", "#6bcb77", "#4d96ff",
    "#9b59b6", "#ff9ff3", "#54a0ff", "#5f27cd", "#48dbfb",
    "#ff9f43", "#ee5a24", "#009432", "#1289A7", "#D980FA" ]

/-- `d[cat] = d.get(cat, Decimal('0')) + amount` on an insertion-ordered
Python dict, embedded as an association list: an existing key is updated in
place, a new key is appended. -/
def bump (k : String) (v : ℚ) : List (String × ℚ) → List (String × ℚ)
  | [] => [(k, v)]
  | p :: rest =>
    if p.1 = k then (p.1, p.2 + v) :: rest else p :: bump k v rest

/-- The four accumulators of the aggregation loop of the `statistics` view. -/
structure AggState where
  income_by_category : List (String × ℚ)
  outcome_by_category : List (String × ℚ)
  total_income : ℚ
  total_outcome : ℚ
  deriving DecidableEq, Repr

/-- One iteration of `for t in transactions_list` in the `statistics` view:
a Refill is added to its income bucket (key `OTHER_REFILL` when the category
string is empty) and to the income total; a Waste symmetrically with
`OTHER_WASTE`; every other type leaves the state unchanged. -/
def aggStep (s : AggState) (t : Transaction) : AggState :=
  if t.ttype = TransactionType.REFILL then
    let cat := if t.category ≠ "" then t.category else "OTHER_REFILL"
    { s with
      income_by_category := bump cat t.amount s.income_by_category,
      total_income := s.total_income + t.amount }
  else if t.ttype = TransactionType.WASTE then
    let cat := if t.category ≠ "" then t.category else "OTHER_WASTE"
    { s with
      outcome_by_category := bump cat t.amount s.outcome_by_category,
      total_outcome := s.total_outcome + t.amount }
  else
    s

/-- The whole aggregation loop, folding `aggStep` over the query set in
iteration order. -/
def aggLoop (s : AggState) : List Transaction → AggState
  | [] => s
  | t :: ts => aggLoop (aggStep s t) ts

/-- The query set of the `statistics` view:
`Transaction.objects.filter(user=.., date__gte=start_date, date__lte=end_date).exclude(type=CHANGING_BALANCE)`. -/
def statsEntries (ledger : List Transaction) (u : Nat)
    (start_date end_date : ℤ) : List Transaction :=
  (ledger.filter (fun t =>
      t.user == u && decide (start_date ≤ t.date) && decide (t.date ≤ end_date))).filter
    (fun t => !(t.ttype == TransactionType.CHANGING_BALANCE))

/-- `sorted(items, key=lambda x: x[1], reverse=True)` is a stable descending
sort by amount; `insertDesc` inserts one element after the elements with a
strictly greater amount and before the first element with an amount `≤` its
own, so an element stays before the later elements that tie with it. -/
def insertDesc (x : String × ℚ) : List (String × ℚ) → List (String × ℚ)
  | [] => [x]
  | y :: ys => if x.2 < y.2 then y :: insertDesc x ys else x :: y :: ys

/-- Stable descending sort by amount (`sorted(..., key=lambda x: x[1],
reverse=True)` of the `statistics` view). -/
def sortDesc : List (String × ℚ) → List (String × ℚ)
  | [] => []
  | x :: xs => insertDesc x (sortDesc xs)

/-- `(amount / total * 100) if total > 0 else 0` of the `statistics` view. -/
def percentOf (amount total : ℚ) : ℚ :=
  if total > 0 then amount / total * 100 else 0

/-- One element of `income_data` / `outcome_data` in the `statistics` view. -/
structure StatRow where
  category : String
  amount : ℚ
  percent : ℚ
  color : String
  deriving DecidableEq, Repr

/-- The `for i, (cat, amount) in enumerate(..._sorted)` loop of the
`statistics` view, carrying the enumeration index `i`. -/
def buildRows (i : Nat) (total : ℚ) : List (String × ℚ) → List StatRow
  | [] => []
  | (cat, amount) :: rest =>
    { category := format_category cat,
      amount := amount,
      percent := percentOf amount total,
      color := colors.getD (i % colors.length) "" } :: buildRows (i + 1) total rest

/-- The context produced by the `statistics` view for a given window. -/
structure StatsResult where
  income_data : List StatRow
  outcome_data : List StatRow
  total_income : ℚ
  total_outcome : ℚ
  deriving DecidableEq, Repr

/-- The state of the four accumulators after the aggregation loop of the
`statistics` view has run over the window's query set. -/
def aggregated (ledger : List Transaction) (u : Nat)
    (start_date end_date : ℤ) : AggState :=
  aggLoop ⟨[], [], 0, 0⟩ (statsEntries ledger u start_date end_date)

/-- The aggregation part of the `statistics` view of `finance/views.py`,
parameterised by the window `[start_date, end_date]` (the month/year window
computation upstream of the query is not modelled: the claims quantify over
windows). -/
def statistics (ledger : List Transaction) (u : Nat)
    (start_date end_date : ℤ) : StatsResult :=
  let s := aggregated ledger u start_date end_date
  { income_data := buildRows 0 s.total_income (sortDesc s.income_by_category),
    outcome_data := buildRows 0 s.total_outcome (sortDesc s.outcome_by_category),
    total_income := s.total_income,
    total_outcome := s.total_outcome }

/-- The balance-correction transaction created by `asset_edit`
(`Transaction.objects.create(type=CHANGING_BALANCE, amount=abs(balance_diff),
currency=asset.currency, to_asset=.. / from_asset=.., date=timezone.now())`). -/
def correctionEntry (u : Nat) (amount : ℚ) (currency : String)
    (src dst : Option Nat) (now : ℤ) : Transaction :=
  { user := u, ttype := TransactionType.CHANGING_BALANCE, amount := amount,
    currency := currency, from_asset := src, to_asset := dst,
    category := "", date := now }

/-- The balance-editing part of the `asset_edit` view of `finance/views.py`:
`current_balance = asset.balance` is read before the POST fields (including a
possibly different currency) are applied; when the requested balance differs,
one Changing-Balance entry of amount `abs(new_balance - current_balance)` in
the asset's (new) currency is created, incoming when the difference is
positive, outgoing otherwise.  Returns the created entries and the updated
asset; the new store is `ledger ++ created`.  All timestamps of the request
are one instant `now`. -/
def asset_edit (ledger : List Transaction) (a : Asset) (newCurrency : String)
    (new_balance : ℚ) (now : ℤ) :
    Except (String × String) (List Transaction × Asset) :=
  match calculate_balance ledger a now with
  | .error e => .error e
  | .ok current_balance =>
    let a' : Asset := { a with currency := newCurrency }
    let created : List Transaction :=
      if new_balance ≠ current_balance then
        let balance_diff := new_balance - current_balance
        if balance_diff > 0 then
          [correctionEntry a.user |balance_diff| a'.currency none (some a'.id) now]
        else
          [correctionEntry a.user |balance_diff| a'.currency (some a'.id) none now]
      else []
    .ok (created, a')

/-! Entry constructors used in theorem statements: a Refill (destination
only), a Waste (source only) and a Changing-Balance credited to an asset,
shaped as the corresponding rows of the transaction table. -/

/-- A Refill entry: destination populated, no source. -/
def refillEntry (u : Nat) (amt : ℚ) (c cat : String) (dst : Nat) (d : ℤ) :
    Transaction :=
  { user := u, ttype := TransactionType.REFILL, amount := amt, currency := c,
    from_asset := none, to_asset := some dst, category := cat, date := d }

/-- A Waste entry: source populated, no destination. -/
def wasteEntry (u : Nat) (amt : ℚ) (c cat : String) (src : Nat) (d : ℤ) :
    Transaction :=
  { user := u, ttype := TransactionType.WASTE, amount := amt, currency := c,
    from_asset := some src, to_asset := none, category := cat, date := d }

/-- A Changing-Balance entry credited to an asset. -/
def changingEntryIn (u : Nat) (amt : ℚ) (c : String) (dst : Nat) (d : ℤ) :
    Transaction :=
  { user := u, ttype := TransactionType.CHANGING_BALANCE, amount := amt,
    currency := c, from_asset := none, to_asset := some dst,
    category := "", date := d }

/-- A fixed RUB asset used for concrete instances. -/
def asset0 : Asset := { id := 0, user := 0, currency := "RUB" }

/-- C6: for every currency string `C` (also one absent from the rate table)
and every amount `x`, `convert(x, C, C)` returns `x` unchanged and never
raises. -/
theorem convert_identity (x : ℚ) (C : String) :
    CurrencyConverter.convert x C C = .ok x := by
  simp [CurrencyConverter.convert]

/-- C5: whenever the two currencies differ and the static rate table defines
no rate for the ordered pair, `convert` fails with an error naming exactly
that pair (so it neither falls back to a default rate nor returns the amount
unchanged). -/
theorem convert_missing_pair (x : ℚ) (c₁ c₂ : String) (hne : c₁ ≠ c₂)
    (hmiss : CurrencyConverter.rateFor (c₁, c₂) = none) :
    CurrencyConverter.convert x c₁ c₂ = .error (c₁, c₂) := by
  simp [CurrencyConverter.convert, hne, hmiss]

/-- Witness for C5 at the spec's own example: `convert(100, "GBP", "RUB")`
fails naming the pair `(GBP, RUB)`. -/
theorem convert_missing_pair_witness :
    CurrencyConverter.convert 100 "GBP" "RUB" = .error ("GBP", "RUB") :=
  convert_missing_pair 100 "GBP" "RUB" (by decide) (by decide)

/-- The value the summation loop adds for one entry, when its conversion
succeeds. -/
def entryVal (accCurrency : String) (t : Transaction) : ℚ :=
  ((entryValue accCurrency t).toOption).getD 0

theorem sumConverted_eq_ok (c : String) (ts : List Transaction)
    (h : ∀ t ∈ ts, entryValue c t = .ok (entryVal c t)) (acc : ℚ) :
    sumConverted c acc ts = .ok (acc + (ts.map (entryVal c)).sum) := by
  induction ts generalizing acc with
  | nil => simp [sumConverted]
  | cons t ts ih =>
    have hv := h t (List.mem_cons_self t ts)
    have hrest : ∀ t' ∈ ts, entryValue c t' = .ok (entryVal c t') :=
      fun t' ht' => h t' (List.mem_cons_of_mem _ ht')
    simp only [sumConverted, hv, ih hrest, List.map_cons, List.sum_cons]
    congr 1
    ring

/-- C1: when every relevant entry's currency conversion succeeds,
`calculate_balance(account, at_time)` equals the sum of the (converted)
amounts of the entries with destination the account and date `≤ at_time`,
minus the same sum over the entries with source the account and date
`≤ at_time`; in particular an account with zero entries returns zero. -/
theorem calculate_balance_formula (ledger : List Transaction) (a : Asset)
    (at_time : ℤ)
    (hin : ∀ t ∈ incoming ledger a at_time,
      entryValue a.currency t = .ok (entryVal a.currency t))
    (hout : ∀ t ∈ outgoing ledger a at_time,
      entryValue a.currency t = .ok (entryVal a.currency t)) :
    calculate_balance ledger a at_time =
      .ok (((incoming ledger a at_time).map (entryVal a.currency)).sum
            - ((outgoing ledger a at_time).map (entryVal a.currency)).sum)
    ∧ calculate_balance [] a at_time = .ok 0 := by
  constructor
  · simp only [calculate_balance, sumConverted_eq_ok _ _ hin,
      sumConverted_eq_ok _ _ hout, zero_add]
  · simp [calculate_balance, incoming, outgoing, sumConverted]

/-- Witness for C1: a RUB account with a Refill of 5000 and a Waste of 3000
dated before `at_time` has balance `5000 − 3000 = 2000`, and with an empty
ledger balance `0`. -/
theorem calculate_balance_formula_witness :
    calculate_balance
        [refillEntry 0 5000 "RUB" "" 0 1, wasteEntry 0 3000 "RUB" "" 0 2]
        asset0 5 = .ok 2000
    ∧ calculate_balance [] asset0 5 = .ok 0 := by
  have h := calculate_balance_formula
    [refillEntry 0 5000 "RUB" "" 0 1, wasteEntry 0 3000 "RUB" "" 0 2]
    asset0 5 (by intro t ht; fin_cases ht; rfl)
    (by intro t ht; fin_cases ht; rfl)
  refine ⟨?_, h.2⟩
  rw [h.1]
  norm_num [incoming, outgoing, refillEntry, wasteEntry, asset0, entryVal,
    entryValue, CurrencyConverter.convert, Except.toOption]

/-- C2: an entry dated `≤ at_time` (in particular exactly at `at_time`) is
included in the incoming set and one dated strictly after is excluded; with
one Refill of 1000 dated `at_time − 1` and one of 2000 dated `at_time + 1`,
only the first contributes, and a Refill dated exactly `at_time` also
counts. -/
theorem calculate_balance_boundary (a : Asset) (u : Nat) (t : ℤ) :
    (∀ ledger tr, tr ∈ ledger → tr.to_asset = some a.id →
      (tr ∈ incoming ledger a t ↔ tr.date ≤ t))
    ∧ calculate_balance
        [refillEntry u 1000 a.currency "" a.id (t - 1),
         refillEntry u 2000 a.currency "" a.id (t + 1)] a t = .ok 1000
    ∧ refillEntry u 1000 a.currency "" a.id (t - 1) ∈
        incoming
          [refillEntry u 1000 a.currency "" a.id (t - 1),
           refillEntry u 2000 a.currency "" a.id (t + 1)] a t
    ∧ refillEntry u 2000 a.currency "" a.id (t + 1) ∉
        incoming
          [refillEntry u 1000 a.currency "" a.id (t - 1),
           refillEntry u 2000 a.currency "" a.id (t + 1)] a t
    ∧ calculate_balance [refillEntry u 1000 a.currency "" a.id t] a t
        = .ok 1000 := by
  have hle : (t - 1 : ℤ) ≤ t := by omega
  have hgt : ¬ (t + 1 : ℤ) ≤ t := by omega
  refine ⟨?_, ?_, ?_, ?_, ?_⟩
  · intro ledger tr htr hdst
    simp [incoming, List.mem_filter, htr, hdst]
  · simp [calculate_balance, incoming, outgoing, refillEntry, hle, hgt,
      sumConverted, entryValue]
  · simp [incoming, refillEntry, hle]
  · simp [incoming, refillEntry, hgt]
  · simp [calculate_balance, incoming, outgoing, refillEntry,
      sumConverted, entryValue]

/-- Witness for C2: at `t = 5` the entry dated 4 is in the incoming set of
the two-Refill ledger and the balance counts only its 1000; the entry dated
6 is excluded; an entry dated exactly 5 is included via the general boundary
equivalence. -/
theorem calculate_balance_boundary_witness :
    calculate_balance
        [refillEntry 0 1000 "RUB" "" 0 4, refillEntry 0 2000 "RUB" "" 0 6]
        asset0 5 = .ok 1000
    ∧ refillEntry 0 500 "RUB" "" 0 5 ∈
        incoming [refillEntry 0 500 "RUB" "" 0 5] asset0 5 := by
  refine ⟨(calculate_balance_boundary asset0 0 5).2.1, ?_⟩
  exact ((calculate_balance_boundary asset0 0 5).1
    [refillEntry 0 500 "RUB" "" 0 5] (refillEntry 0 500 "RUB" "" 0 5)
    (by decide) (by decide)).mpr (by decide)

/-- C3: Changing-Balance entries are credited and debited by
`calculate_balance` exactly like Refill/Waste entries, but the statistics
query excludes them entirely: a Changing-Balance entry of 5000 plus a Refill
of 2000 inside the window gives a period income total of exactly 2000 while
the account balance reflects both (7000). -/
theorem changing_balance_in_balance_not_stats
    (a : Asset) (u : Nat) (s e d₁ d₂ T : ℤ)
    (h₁ : s ≤ d₁) (h₂ : d₁ ≤ e) (h₃ : s ≤ d₂) (h₄ : d₂ ≤ e)
    (h₅ : d₁ ≤ T) (h₆ : d₂ ≤ T) :
    (∀ ledger u' s' e' tr, tr ∈ statsEntries ledger u' s' e' →
        tr.ttype ≠ TransactionType.CHANGING_BALANCE)
    ∧ statsEntries [changingEntryIn u 5000 a.currency a.id d₁,
        refillEntry u 2000 a.currency "" a.id d₂] u s e
        = [refillEntry u 2000 a.currency "" a.id d₂]
    ∧ (statistics [changingEntryIn u 5000 a.currency a.id d₁,
        refillEntry u 2000 a.currency "" a.id d₂] u s e).total_income = 2000
    ∧ calculate_balance [changingEntryIn u 5000 a.currency a.id d₁,
        refillEntry u 2000 a.currency "" a.id d₂] a T = .ok 7000 := by
  have hstats : statsEntries [changingEntryIn u 5000 a.currency a.id d₁,
      refillEntry u 2000 a.currency "" a.id d₂] u s e
      = [refillEntry u 2000 a.currency "" a.id d₂] := by
    simp [statsEntries, changingEntryIn, refillEntry, h₁, h₂, h₃, h₄]
  refine ⟨?_, hstats, ?_, ?_⟩
  · intro ledger u' s' e' tr htr
    simp only [statsEntries, List.mem_filter] at htr
    simpa using htr.2
  · simp only [statistics, aggregated]
    rw [hstats]
    simp [aggLoop, aggStep, refillEntry]
  · simp [calculate_balance, incoming, outgoing, changingEntryIn,
      refillEntry, h₅, h₆, sumConverted, entryValue]
    norm_num

/-- Witness for C3 at a concrete window `[0, 10]`, the Changing-Balance
entry dated 3, the Refill dated 4, the balance taken at 10. -/
theorem changing_balance_in_balance_not_stats_witness :
    (∀ ledger u' s' e' tr, tr ∈ statsEntries ledger u' s' e' →
        tr.ttype ≠ TransactionType.CHANGING_BALANCE)
    ∧ statsEntries [changingEntryIn 0 5000 asset0.currency asset0.id 3,
        refillEntry 0 2000 asset0.currency "" asset0.id 4] 0 0 10
        = [refillEntry 0 2000 asset0.currency "" asset0.id 4]
    ∧ (statistics [changingEntryIn 0 5000 asset0.currency asset0.id 3,
        refillEntry 0 2000 asset0.currency "" asset0.id 4] 0 0 10).total_income
        = 2000
    ∧ calculate_balance [changingEntryIn 0 5000 asset0.currency asset0.id 3,
        refillEntry 0 2000 asset0.currency "" asset0.id 4] asset0 10
        = .ok 7000 :=
  changing_balance_in_balance_not_stats asset0 0 0 10 3 4 10
    (by decide) (by decide) (by decide) (by decide) (by decide) (by decide)

/-- Counterexample to C4: a Waste entry with an empty category string and a
Waste entry explicitly categorized `OTHER_WASTE`, both in the window, land in
one single merged bucket (labeled "Other waste", amount `100 + 200 = 300`),
not in two distinct buckets. -/
theorem statistics_empty_category_cex :
    (statistics [wasteEntry 0 100 "RUB" "" 0 3,
        wasteEntry 0 200 "RUB" "OTHER_WASTE" 0 4] 0 0 10).outcome_data
      = [{ category := "Other waste", amount := 300, percent := 100,
           color := "#ff6b6b" }]
    ∧ (statistics [wasteEntry 0 100 "RUB" "" 0 3,
        wasteEntry 0 200 "RUB" "OTHER_WASTE" 0 4] 0 0 10).outcome_data.length
        ≠ 2 := by
  have hw : statsEntries [wasteEntry 0 100 "RUB" "" 0 3,
      wasteEntry 0 200 "RUB" "OTHER_WASTE" 0 4] 0 0 10
      = [wasteEntry 0 100 "RUB" "" 0 3,
         wasteEntry 0 200 "RUB" "OTHER_WASTE" 0 4] := by
    simp [statsEntries, wasteEntry]
  constructor
  · simp only [statistics, aggregated]
    rw [hw]
    simp [aggLoop, aggStep, wasteEntry, bump, sortDesc, insertDesc, buildRows,
      format_category, RefillChoices, WasteChoices, colors, percentOf]
    norm_num
  · simp only [statistics, aggregated]
    rw [hw]
    simp [aggLoop, aggStep, wasteEntry, bump, sortDesc, insertDesc, buildRows]

/-- C4 amended: in period aggregation a Waste entry with an empty category
string is assigned the key `OTHER_WASTE` and grouped into the same bucket
(labeled "Other waste") as entries explicitly categorized `OTHER_WASTE`;
symmetrically an empty-category Refill joins the `OTHER_REFILL`
("Other refill") bucket of explicitly categorized `OTHER_REFILL` entries. -/
theorem statistics_empty_category_merges (u : Nat) (s e d₁ d₂ : ℤ) (x y : ℚ)
    (h₁ : s ≤ d₁) (h₂ : d₁ ≤ e) (h₃ : s ≤ d₂) (h₄ : d₂ ≤ e) :
    (statistics [wasteEntry u x "RUB" "" 0 d₁,
        wasteEntry u y "RUB" "OTHER_WASTE" 0 d₂] u s e).outcome_data
      = [{ category := "Other waste", amount := x + y,
           percent := percentOf (x + y) (x + y), color := "#ff6b6b" }]
    ∧ (statistics [refillEntry u x "RUB" "" 0 d₁,
        refillEntry u y "RUB" "OTHER_REFILL" 0 d₂] u s e).income_data
      = [{ category := "Other refill", amount := x + y,
           percent := percentOf (x + y) (x + y), color := "#ff6b6b" }] := by
  constructor
  · have hw : statsEntries [wasteEntry u x "RUB" "" 0 d₁,
        wasteEntry u y "RUB" "OTHER_WASTE" 0 d₂] u s e
        = [wasteEntry u x "RUB" "" 0 d₁,
           wasteEntry u y "RUB" "OTHER_WASTE" 0 d₂] := by
      simp [statsEntries, wasteEntry, h₁, h₂, h₃, h₄]
    simp only [statistics, aggregated]
    rw [hw]
    simp [aggLoop, aggStep, wasteEntry, bump, sortDesc, insertDesc, buildRows,
      format_category, RefillChoices, WasteChoices, colors, percentOf]
  · have hr : statsEntries [refillEntry u x "RUB" "" 0 d₁,
        refillEntry u y "RUB" "OTHER_REFILL" 0 d₂] u s e
        = [refillEntry u x "RUB" "" 0 d₁,
           refillEntry u y "RUB" "OTHER_REFILL" 0 d₂] := by
      simp [statsEntries, refillEntry, h₁, h₂, h₃, h₄]
    simp only [statistics, aggregated]
    rw [hr]
    simp [aggLoop, aggStep, refillEntry, bump, sortDesc, insertDesc, buildRows,
      format_category, RefillChoices, WasteChoices, colors, percentOf]

/-- Witness for the amended C4 at the window `[0, 10]`, amounts 100 and
200, entry dates 3 and 4. -/
theorem statistics_empty_category_merges_witness :
    (statistics [wasteEntry 7 100 "RUB" "" 0 3,
        wasteEntry 7 200 "RUB" "OTHER_WASTE" 0 4] 7 0 10).outcome_data
      = [{ category := "Other waste", amount := 100 + 200,
           percent := percentOf (100 + 200) (100 + 200), color := "#ff6b6b" }]
    ∧ (statistics [refillEntry 7 100 "RUB" "" 0 3,
        refillEntry 7 200 "RUB" "OTHER_REFILL" 0 4] 7 0 10).income_data
      = [{ category := "Other refill", amount := 100 + 200,
           percent := percentOf (100 + 200) (100 + 200), color := "#ff6b6b" }] :=
  statistics_empty_category_merges 7 0 10 3 4 100 200
    (by decide) (by decide) (by decide) (by decide)

theorem buildRows_percent (total : ℚ) :
    ∀ (l : List (String × ℚ)) (i : Nat), ∀ r ∈ buildRows i total l,
      r.percent = percentOf r.amount total := by
  intro l
  induction l with
  | nil =>
    intro i r hr
    simp [buildRows] at hr
  | cons p rest ih =>
    intro i r hr
    obtain ⟨cat, amount⟩ := p
    simp only [buildRows, List.mem_cons] at hr
    rcases hr with h | h
    · subst h; rfl
    · exact ih (i + 1) r h

theorem aggLoop_no_refill :
    ∀ (ts : List Transaction) (st : AggState),
      (∀ t ∈ ts, t.ttype ≠ TransactionType.REFILL) →
      (aggLoop st ts).income_by_category = st.income_by_category
      ∧ (aggLoop st ts).total_income = st.total_income := by
  intro ts
  induction ts with
  | nil => intro st _; exact ⟨rfl, rfl⟩
  | cons t ts ih =>
    intro st h
    have ht := h t (List.mem_cons_self t ts)
    have hrest : ∀ t' ∈ ts, t'.ttype ≠ TransactionType.REFILL :=
      fun t' ht' => h t' (List.mem_cons_of_mem _ ht')
    have hstep : (aggStep st t).income_by_category = st.income_by_category
        ∧ (aggStep st t).total_income = st.total_income := by
      simp only [aggStep]
      split
      · exact absurd (by assumption) ht
      · split
        · exact ⟨rfl, rfl⟩
        · exact ⟨rfl, rfl⟩
    obtain ⟨h1, h2⟩ := ih (aggStep st t) hrest
    simp only [aggLoop]
    exact ⟨h1.trans hstep.1, h2.trans hstep.2⟩

/-- C7: each statistics group's percent equals
`group_total / direction_total × 100` when the direction total is positive
and is 0 otherwise; a window with no income entries yields income total 0
and no income groups (no division-by-zero error), with percent 0 for every
(absent) income group. -/
theorem statistics_percent_safe (ledger : List Transaction) (u : Nat)
    (s e : ℤ) :
    (∀ r ∈ (statistics ledger u s e).income_data,
        r.percent = if (statistics ledger u s e).total_income > 0
          then r.amount / (statistics ledger u s e).total_income * 100 else 0)
    ∧ (∀ r ∈ (statistics ledger u s e).outcome_data,
        r.percent = if (statistics ledger u s e).total_outcome > 0
          then r.amount / (statistics ledger u s e).total_outcome * 100 else 0)
    ∧ ((∀ t ∈ statsEntries ledger u s e, t.ttype ≠ TransactionType.REFILL) →
        (statistics ledger u s e).total_income = 0
        ∧ (statistics ledger u s e).income_data = [])
    ∧ ((statistics ledger u s e).total_income = 0 →
        ∀ r ∈ (statistics ledger u s e).income_data, r.percent = 0) := by
  have hinc : ∀ r ∈ (statistics ledger u s e).income_data,
      r.percent = percentOf r.amount (statistics ledger u s e).total_income :=
    fun r hr => buildRows_percent _ _ 0 r hr
  have hout : ∀ r ∈ (statistics ledger u s e).outcome_data,
      r.percent = percentOf r.amount (statistics ledger u s e).total_outcome :=
    fun r hr => buildRows_percent _ _ 0 r hr
  refine ⟨fun r hr => hinc r hr, fun r hr => hout r hr, ?_, ?_⟩
  · intro hno
    obtain ⟨h1, h2⟩ := aggLoop_no_refill (statsEntries ledger u s e)
      ⟨[], [], 0, 0⟩ hno
    refine ⟨h2, ?_⟩
    show buildRows 0 _ (sortDesc (aggLoop ⟨[], [], 0, 0⟩
      (statsEntries ledger u s e)).income_by_category) = []
    rw [h1]
    rfl
  · intro h0 r hr
    rw [hinc r hr, h0]
    rfl

/-- Witness for C7: a window containing one Waste entry and no income
entries has income total 0, an empty income group list, and percent 0 for
every income group. -/
theorem statistics_percent_safe_witness :
    (statistics [wasteEntry 0 50 "RUB" "" 0 3] 0 0 10).total_income = 0
    ∧ (statistics [wasteEntry 0 50 "RUB" "" 0 3] 0 0 10).income_data = []
    ∧ ∀ r ∈ (statistics [wasteEntry 0 50 "RUB" "" 0 3] 0 0 10).income_data,
        r.percent = 0 := by
  have h := statistics_percent_safe [wasteEntry 0 50 "RUB" "" 0 3] 0 0 10
  have h3 := h.2.2.1 (by decide)
  exact ⟨h3.1, h3.2, h.2.2.2 h3.1⟩

theorem insertDesc_perm (x : String × ℚ) (l : List (String × ℚ)) :
    (insertDesc x l).Perm (x :: l) := by
  induction l with
  | nil => exact List.Perm.refl _
  | cons y ys ih =>
    simp only [insertDesc]
    split
    · exact (ih.cons y).trans (List.Perm.swap x y ys)
    · exact List.Perm.refl _

theorem sortDesc_perm (l : List (String × ℚ)) : (sortDesc l).Perm l := by
  induction l with
  | nil => exact List.Perm.refl _
  | cons x xs ih => exact (insertDesc_perm x (sortDesc xs)).trans (ih.cons x)

theorem insertDesc_pairwise (x : String × ℚ) (l : List (String × ℚ))
    (h : l.Pairwise (fun p q => q.2 ≤ p.2)) :
    (insertDesc x l).Pairwise (fun p q => q.2 ≤ p.2) := by
  induction l with
  | nil => simp [insertDesc]
  | cons y ys ih =>
    rw [List.pairwise_cons] at h
    obtain ⟨hy, hys⟩ := h
    simp only [insertDesc]
    split
    · rename_i hlt
      rw [List.pairwise_cons]
      refine ⟨?_, ih hys⟩
      intro z hz
      have hz' : z ∈ x :: ys := (insertDesc_perm x ys).mem_iff.mp hz
      rcases List.mem_cons.mp hz' with hzx | hzy
      · subst hzx; exact le_of_lt hlt
      · exact hy z hzy
    · rename_i hge
      rw [List.pairwise_cons]
      refine ⟨?_, List.pairwise_cons.mpr ⟨hy, hys⟩⟩
      intro z hz
      rcases List.mem_cons.mp hz with hzy | hzys
      · subst hzy; exact not_lt.mp hge
      · exact (hy z hzys).trans (not_lt.mp hge)

theorem sortDesc_pairwise (l : List (String × ℚ)) :
    (sortDesc l).Pairwise (fun p q => q.2 ≤ p.2) := by
  induction l with
  | nil => simp [sortDesc]
  | cons x xs ih => exact insertDesc_pairwise x _ ih

theorem insertDesc_filter (q : ℚ) (x : String × ℚ) (l : List (String × ℚ)) :
    (insertDesc x l).filter (fun p => decide (p.2 = q))
      = if x.2 = q then x :: l.filter (fun p => decide (p.2 = q))
        else l.filter (fun p => decide (p.2 = q)) := by
  induction l with
  | nil =>
    by_cases hx : x.2 = q
    · simp [insertDesc, List.filter, hx]
    · simp [insertDesc, List.filter, hx]
  | cons y ys ih =>
    simp only [insertDesc]
    split
    · rename_i hlt
      by_cases hx : x.2 = q
      · have hy : ¬ (y.2 = q) := by
          intro hyq
          rw [hx] at hlt
          rw [hyq] at hlt
          exact lt_irrefl q hlt
        simp [List.filter_cons, hx, hy, ih]
      · simp [List.filter_cons, hx, ih]
    · by_cases hx : x.2 = q
      · simp [List.filter_cons, hx]
      · simp [List.filter_cons, hx]

theorem sortDesc_filter (q : ℚ) (l : List (String × ℚ)) :
    (sortDesc l).filter (fun p => decide (p.2 = q))
      = l.filter (fun p => decide (p.2 = q)) := by
  induction l with
  | nil => rfl
  | cons x xs ih =>
    show (insertDesc x (sortDesc xs)).filter (fun p => decide (p.2 = q)) = _
    rw [insertDesc_filter]
    by_cases hx : x.2 = q
    · simp [List.filter_cons, hx, ih]
    · simp [List.filter_cons, hx, ih]

theorem buildRows_map (total : ℚ) :
    ∀ (l : List (String × ℚ)) (i : Nat),
      (buildRows i total l).map (fun r => (r.category, r.amount))
        = l.map (fun p => (format_category p.1, p.2)) := by
  intro l
  induction l with
  | nil => intro i; rfl
  | cons p rest ih =>
    intro i
    obtain ⟨c, a⟩ := p
    simp [buildRows, ih]

theorem buildRows_color (total : ℚ) :
    ∀ (l : List (String × ℚ)) (i j : Nat) (r : StatRow),
      (buildRows j total l).get? i = some r →
      r.color = colors.getD ((j + i) % colors.length) "" := by
  intro l
  induction l with
  | nil => intro i j r h; simp [buildRows] at h
  | cons p rest ih =>
    intro i j r h
    obtain ⟨c, a⟩ := p
    cases i with
    | zero =>
      simp only [buildRows, List.get?] at h
      cases h
      rfl
    | succ i =>
      simp only [buildRows, List.get?] at h
      have hr := ih i (j + 1) r h
      rw [hr]
      congr 2
      omega

/-- C8: the statistics view lists each direction's groups sorted by total
amount in descending order, with ties kept in insertion order (the sort is
stable: filtering either list to any fixed amount gives identical lists),
and the group at 0-based rank `i` receives the color at index
`i mod 15` of the fixed 15-entry palette.  Stated here for the income
direction and the outcome direction. -/
theorem statistics_sorted_colors (ledger : List Transaction) (u : Nat)
    (s e : ℤ) :
    colors.length = 15
    ∧ (statistics ledger u s e).income_data.map (fun r => (r.category, r.amount))
        = (sortDesc (aggregated ledger u s e).income_by_category).map
            (fun p => (format_category p.1, p.2))
    ∧ (sortDesc (aggregated ledger u s e).income_by_category).Pairwise
        (fun p q => q.2 ≤ p.2)
    ∧ (∀ q : ℚ,
        (sortDesc (aggregated ledger u s e).income_by_category).filter
            (fun p => decide (p.2 = q))
          = (aggregated ledger u s e).income_by_category.filter
            (fun p => decide (p.2 = q)))
    ∧ (sortDesc (aggregated ledger u s e).income_by_category).Perm
        (aggregated ledger u s e).income_by_category
    ∧ (∀ i r, (statistics ledger u s e).income_data.get? i = some r →
        r.color = colors.getD (i % colors.length) "")
    ∧ (statistics ledger u s e).outcome_data.map (fun r => (r.category, r.amount))
        = (sortDesc (aggregated ledger u s e).outcome_by_category).map
            (fun p => (format_category p.1, p.2))
    ∧ (sortDesc (aggregated ledger u s e).outcome_by_category).Pairwise
        (fun p q => q.2 ≤ p.2)
    ∧ (∀ q : ℚ,
        (sortDesc (aggregated ledger u s e).outcome_by_category).filter
            (fun p => decide (p.2 = q))
          = (aggregated ledger u s e).outcome_by_category.filter
            (fun p => decide (p.2 = q)))
    ∧ (sortDesc (aggregated ledger u s e).outcome_by_category).Perm
        (aggregated ledger u s e).outcome_by_category
    ∧ (∀ i r, (statistics ledger u s e).outcome_data.get? i = some r →
        r.color = colors.getD (i % colors.length) "") := by
  refine ⟨rfl, buildRows_map _ _ 0, sortDesc_pairwise _,
    fun q => sortDesc_filter q _, sortDesc_perm _, ?_,
    buildRows_map _ _ 0, sortDesc_pairwise _,
    fun q => sortDesc_filter q _, sortDesc_perm _, ?_⟩
  · intro i r h
    have := buildRows_color _ _ i 0 r h
    simpa using this
  · intro i r h
    have := buildRows_color _ _ i 0 r h
    simpa using this

/-- Witness for C8: a ledger with a single Waste of 100 yields one outcome
group, ranked 0, carrying the palette color at index `0 mod 15`, namely
`#ff6b6b`. -/
theorem statistics_sorted_colors_witness :
    ({ category := "Other waste", amount := 100, percent := 100,
       color := "#ff6b6b" } : StatRow).color
      = colors.getD (0 % colors.length) "" := by
  refine (statistics_sorted_colors [wasteEntry 0 100 "RUB" "" 0 3]
    0 0 10).2.2.2.2.2.2.2.2.2.2 0 _ ?_
  have hw : statsEntries [wasteEntry 0 100 "RUB" "" 0 3] 0 0 10
      = [wasteEntry 0 100 "RUB" "" 0 3] := by
    simp [statsEntries, wasteEntry]
  simp only [statistics, aggregated]
  rw [hw]
  simp [aggLoop, aggStep, wasteEntry, bump, sortDesc, insertDesc, buildRows,
    format_category, RefillChoices, WasteChoices, colors, percentOf]

/-- The income bucket key of the aggregation loop:
`t.category if t.category else 'OTHER_REFILL'`. -/
def refill_key (t : Transaction) : String :=
  if t.category ≠ "" then t.category else "OTHER_REFILL"

/-- The expense bucket key of the aggregation loop:
`t.category if t.category else 'OTHER_WASTE'`. -/
def waste_key (t : Transaction) : String :=
  if t.category ≠ "" then t.category else "OTHER_WASTE"

/-- The amount stored under a key of a category dictionary
(0 when the key is absent). -/
def lookupAmt (m : List (String × ℚ)) (k : String) : ℚ :=
  ((m.find? (fun p => p.1 == k)).map (fun p => p.2)).getD 0

theorem lookupAmt_bump (k k' : String) (v : ℚ) (m : List (String × ℚ)) :
    lookupAmt (bump k v m) k' = lookupAmt m k' + (if k' = k then v else 0) := by
  induction m with
  | nil =>
    by_cases h : k' = k
    · subst h; simp [bump, lookupAmt]
    · simp [bump, lookupAmt, h, Ne.symm h]
  | cons p rest ih =>
    by_cases hp : p.1 = k
    · simp only [bump, if_pos hp]
      by_cases h' : k' = k
      · subst h'
        simp [lookupAmt, hp]
      · have hpk : ¬ (p.1 = k') := fun hc => h' (hc ▸ hp ▸ rfl)
        simp [lookupAmt, hpk, h']
    · simp only [bump, if_neg hp]
      by_cases hpk : p.1 = k'
      · simp [lookupAmt, hpk]
        by_cases h' : k' = k
        · exact absurd (h' ▸ hpk) hp
        · simp [h']
      · simp only [lookupAmt, List.find?]
        have : (p.1 == k') = false := by simp [hpk]
        rw [this]
        exact ih

theorem aggLoop_total_income (ts : List Transaction) :
    ∀ st : AggState,
      (aggLoop st ts).total_income
        = st.total_income
          + ((ts.filter (fun t => t.ttype == TransactionType.REFILL)).map
              (fun t => t.amount)).sum := by
  induction ts with
  | nil => intro st; simp [aggLoop]
  | cons t ts ih =>
    intro st
    simp only [aggLoop]
    rw [ih (aggStep st t)]
    rcases htt : t.ttype with _ | _ | _ | _ <;>
      (simp [aggStep, htt, List.filter_cons]; try ring)

theorem aggLoop_total_outcome (ts : List Transaction) :
    ∀ st : AggState,
      (aggLoop st ts).total_outcome
        = st.total_outcome
          + ((ts.filter (fun t => t.ttype == TransactionType.WASTE)).map
              (fun t => t.amount)).sum := by
  induction ts with
  | nil => intro st; simp [aggLoop]
  | cons t ts ih =>
    intro st
    simp only [aggLoop]
    rw [ih (aggStep st t)]
    rcases htt : t.ttype with _ | _ | _ | _ <;>
      (simp [aggStep, htt, List.filter_cons]; try ring)

theorem aggLoop_income_lookup (k : String) (ts : List Transaction) :
    ∀ st : AggState,
      lookupAmt (aggLoop st ts).income_by_category k
        = lookupAmt st.income_by_category k
          + ((ts.filter (fun t =>
                t.ttype == TransactionType.REFILL && refill_key t == k)).map
              (fun t => t.amount)).sum := by
  induction ts with
  | nil => intro st; simp [aggLoop]
  | cons t ts ih =>
    intro st
    simp only [aggLoop]
    rw [ih (aggStep st t)]
    rcases htt : t.ttype with _ | _ | _ | _
    · simp [aggStep, htt, List.filter_cons]
    · simp [aggStep, htt, List.filter_cons]
    · simp [aggStep, htt, List.filter_cons, lookupAmt_bump, refill_key]
      by_cases hk : (if t.category = "" then "OTHER_REFILL" else t.category) = k
      · simp [hk]
        try ring
      · simp [hk, Ne.symm hk]
    · simp [aggStep, htt, List.filter_cons]

theorem aggLoop_outcome_lookup (k : String) (ts : List Transaction) :
    ∀ st : AggState,
      lookupAmt (aggLoop st ts).outcome_by_category k
        = lookupAmt st.outcome_by_category k
          + ((ts.filter (fun t =>
                t.ttype == TransactionType.WASTE && waste_key t == k)).map
              (fun t => t.amount)).sum := by
  induction ts with
  | nil => intro st; simp [aggLoop]
  | cons t ts ih =>
    intro st
    simp only [aggLoop]
    rw [ih (aggStep st t)]
    rcases htt : t.ttype with _ | _ | _ | _
    · simp [aggStep, htt, List.filter_cons, lookupAmt_bump, waste_key]
      by_cases hk : (if t.category = "" then "OTHER_WASTE" else t.category) = k
      · simp [hk]
        try ring
      · simp [hk, Ne.symm hk]
    · simp [aggStep, htt, List.filter_cons]
    · simp [aggStep, htt, List.filter_cons]
    · simp [aggStep, htt, List.filter_cons]

/-- C9: period aggregation sums raw stored amounts with no currency
conversion: the income (resp. expense) total is the plain sum of the
amounts of the Refill (resp. Waste) entries of the window, each category
bucket is the plain sum over the entries carrying its key, all irrespective
of the entries' currency codes; mixing a 100 USD Refill and a 100 EUR
Refill yields an income total of 200. -/
theorem statistics_no_conversion (ledger : List Transaction) (u : Nat)
    (s e : ℤ) :
    (statistics ledger u s e).total_income
      = (((statsEntries ledger u s e).filter
            (fun t => t.ttype == TransactionType.REFILL)).map
          (fun t => t.amount)).sum
    ∧ (statistics ledger u s e).total_outcome
      = (((statsEntries ledger u s e).filter
            (fun t => t.ttype == TransactionType.WASTE)).map
          (fun t => t.amount)).sum
    ∧ (∀ k : String, lookupAmt (aggregated ledger u s e).income_by_category k
        = (((statsEntries ledger u s e).filter (fun t =>
              t.ttype == TransactionType.REFILL && refill_key t == k)).map
            (fun t => t.amount)).sum)
    ∧ (∀ k : String, lookupAmt (aggregated ledger u s e).outcome_by_category k
        = (((statsEntries ledger u s e).filter (fun t =>
              t.ttype == TransactionType.WASTE && waste_key t == k)).map
            (fun t => t.amount)).sum)
    ∧ (statistics [refillEntry 9 100 "USD" "" 0 5,
        refillEntry 9 100 "EUR" "" 0 5] 9 0 10).total_income = 200 := by
  refine ⟨?_, ?_, ?_, ?_, ?_⟩
  · have h := aggLoop_total_income (statsEntries ledger u s e) ⟨[], [], 0, 0⟩
    simpa [statistics, aggregated] using h
  · have h := aggLoop_total_outcome (statsEntries ledger u s e) ⟨[], [], 0, 0⟩
    simpa [statistics, aggregated] using h
  · intro k
    have h := aggLoop_income_lookup k (statsEntries ledger u s e) ⟨[], [], 0, 0⟩
    simpa [aggregated, lookupAmt] using h
  · intro k
    have h := aggLoop_outcome_lookup k (statsEntries ledger u s e) ⟨[], [], 0, 0⟩
    simpa [aggregated, lookupAmt] using h
  · have hw : statsEntries [refillEntry 9 100 "USD" "" 0 5,
        refillEntry 9 100 "EUR" "" 0 5] 9 0 10
        = [refillEntry 9 100 "USD" "" 0 5, refillEntry 9 100 "EUR" "" 0 5] := by
      simp [statsEntries, refillEntry]
    simp only [statistics, aggregated]
    rw [hw]
    simp [aggLoop, aggStep, refillEntry, bump]
    norm_num

theorem sumConverted_append (c : String) (xs ys : List Transaction) :
    ∀ acc, sumConverted c acc (xs ++ ys)
      = match sumConverted c acc xs with
        | .error er => .error er
        | .ok m => sumConverted c m ys := by
  induction xs with
  | nil => intro acc; simp [sumConverted]
  | cons t ts ih =>
    intro acc
    simp only [List.cons_append, sumConverted]
    cases entryValue c t with
    | error er => rfl
    | ok a => exact ih (acc + a)

/-- Counterexample to C10: editing a RUB account holding one Refill of 1000
RUB while simultaneously changing its currency to USD and requesting balance
2000 creates the expected single correction entry of 1000 (in USD), but
recomputing the balance immediately afterwards returns 1011 — the old RUB
entry is now converted at 0.011 — not the requested 2000. -/
theorem asset_edit_currency_change_cex :
    asset_edit [refillEntry 0 1000 "RUB" "" 0 0] asset0 "USD" 2000 5
      = .ok ([correctionEntry 0 1000 "USD" none (some 0) 5],
             { id := 0, user := 0, currency := "USD" })
    ∧ calculate_balance
        ([refillEntry 0 1000 "RUB" "" 0 0]
          ++ [correctionEntry 0 1000 "USD" none (some 0) 5])
        { id := 0, user := 0, currency := "USD" } 5 = .ok 1011
    ∧ (1011 : ℚ) ≠ 2000 := by
  refine ⟨?_, ?_, by norm_num⟩
  · simp [asset_edit, calculate_balance, incoming, outgoing, sumConverted,
      entryValue, CurrencyConverter.convert, CurrencyConverter.rateFor,
      CurrencyConverter.RATES, refillEntry, asset0, correctionEntry]
    norm_num
  · simp [calculate_balance, incoming, outgoing, sumConverted,
      entryValue, CurrencyConverter.convert, CurrencyConverter.rateFor,
      CurrencyConverter.RATES, refillEntry, correctionEntry]
    norm_num

/-- C10 amended: when the edit keeps the account's currency, editing with a
target balance `v` creates exactly one Changing-Balance correction entry of
magnitude `|v − current balance|` — destination the account when `v` exceeds
the current balance, source the account when `v` is below it, no entry when
they are equal — with a non-negative amount, and recomputing the balance at
the same instant returns `v`.  (When the edit also changes the currency the
recomputed balance can differ from `v`, as the counterexample shows.) -/
theorem asset_edit_balance (ledger : List Transaction) (a : Asset)
    (v : ℚ) (now : ℤ) (cur : ℚ)
    (hcur : calculate_balance ledger a now = .ok cur) :
    ∃ created, asset_edit ledger a a.currency v now = .ok (created, a)
      ∧ (v = cur → created = [])
      ∧ (v > cur → created
          = [correctionEntry a.user |v - cur| a.currency none (some a.id) now])
      ∧ (v < cur → created
          = [correctionEntry a.user |v - cur| a.currency (some a.id) none now])
      ∧ (∀ t ∈ created, t.ttype = TransactionType.CHANGING_BALANCE
          ∧ 0 ≤ t.amount ∧ t.amount = |v - cur|)
      ∧ calculate_balance (ledger ++ created) a now = .ok v := by
  rcases hin : sumConverted a.currency 0 (incoming ledger a now) with er | ti
  · simp [calculate_balance, hin] at hcur
  rcases hout : sumConverted a.currency 0 (outgoing ledger a now) with er | tout
  · simp [calculate_balance, hin, hout] at hcur
  have hsum : ti - tout = cur := by
    simpa [calculate_balance, hin, hout] using hcur
  refine ⟨if v ≠ cur then
      (if v - cur > 0 then
        [correctionEntry a.user |v - cur| a.currency none (some a.id) now]
      else
        [correctionEntry a.user |v - cur| a.currency (some a.id) none now])
    else [], ?_, ?_, ?_, ?_, ?_, ?_⟩
  · simp only [asset_edit]
    rw [hcur]
  · intro hvc
    simp [hvc]
  · intro hvc
    have h1 : v ≠ cur := ne_of_gt hvc
    have h2 : v - cur > 0 := sub_pos.mpr hvc
    simp [h1, h2]
  · intro hvc
    have h1 : v ≠ cur := ne_of_lt hvc
    have h2 : ¬ (v - cur > 0) := by simp; linarith
    simp [h1, h2]
  · intro t ht
    by_cases h1 : v ≠ cur
    · by_cases h2 : v - cur > 0
      · simp [h1, h2] at ht
        subst ht
        exact ⟨rfl, abs_nonneg _, rfl⟩
      · simp [h1, h2] at ht
        subst ht
        exact ⟨rfl, abs_nonneg _, rfl⟩
    · simp [h1] at ht
  · by_cases h1 : v ≠ cur
    · by_cases h2 : v - cur > 0
      · simp only [if_pos h1, if_pos h2]
        have habs : |v - cur| = v - cur := abs_of_pos h2
        have hinc2 : incoming (ledger
              ++ [correctionEntry a.user |v - cur| a.currency none (some a.id) now]) a now
            = incoming ledger a now
              ++ [correctionEntry a.user |v - cur| a.currency none (some a.id) now] := by
          simp [incoming, List.filter_append, correctionEntry]
        have hout2 : outgoing (ledger
              ++ [correctionEntry a.user |v - cur| a.currency none (some a.id) now]) a now
            = outgoing ledger a now := by
          simp [outgoing, List.filter_append, correctionEntry]
        simp only [calculate_balance, hinc2, hout2, hout,
          sumConverted_append, hin]
        simp [sumConverted, entryValue, correctionEntry, habs]
        linarith
      · simp only [if_pos h1, if_neg h2]
        have hvc : v < cur := by
          rcases lt_trichotomy v cur with h | h | h
          · exact h
          · exact absurd h h1
          · exact absurd (sub_pos.mpr h) h2
        have habs : |v - cur| = cur - v := by
          rw [abs_of_neg (by linarith : v - cur < 0)]
          ring
        have hinc2 : incoming (ledger
              ++ [correctionEntry a.user |v - cur| a.currency (some a.id) none now]) a now
            = incoming ledger a now := by
          simp [incoming, List.filter_append, correctionEntry]
        have hout2 : outgoing (ledger
              ++ [correctionEntry a.user |v - cur| a.currency (some a.id) none now]) a now
            = outgoing ledger a now
              ++ [correctionEntry a.user |v - cur| a.currency (some a.id) none now] := by
          simp [outgoing, List.filter_append, correctionEntry]
        simp only [calculate_balance, hinc2, hout2, hin,
          sumConverted_append, hout]
        simp [sumConverted, entryValue, correctionEntry, habs]
        linarith
    · push_neg at h1
      subst h1
      simpa using hcur

/-- Witness for the amended C10: editing the RUB account holding one Refill
of 1000 RUB to target balance 2000 without changing the currency; the
recomputed balance is 2000. -/
theorem asset_edit_balance_witness :
    ∃ created, asset_edit [refillEntry 0 1000 "RUB" "" 0 0] asset0
        asset0.currency 2000 5 = .ok (created, asset0)
      ∧ ((2000 : ℚ) = 1000 → created = [])
      ∧ ((2000 : ℚ) > 1000 → created
          = [correctionEntry asset0.user |(2000 : ℚ) - 1000| asset0.currency
              none (some asset0.id) 5])
      ∧ ((2000 : ℚ) < 1000 → created
          = [correctionEntry asset0.user |(2000 : ℚ) - 1000| asset0.currency
              (some asset0.id) none 5])
      ∧ (∀ t ∈ created, t.ttype = TransactionType.CHANGING_BALANCE
          ∧ 0 ≤ t.amount ∧ t.amount = |(2000 : ℚ) - 1000|)
      ∧ calculate_balance ([refillEntry 0 1000 "RUB" "" 0 0] ++ created)
          asset0 5 = .ok 2000 := by
  refine asset_edit_balance [refillEntry 0 1000 "RUB" "" 0 0] asset0
    2000 5 1000 ?_
  simp [calculate_balance, incoming, outgoing, sumConverted, entryValue,
    refillEntry, asset0]

end TopMoney
